import Mathlib

/-!
Verification of the Vibe-Track client core: the data model (`types.ts`),
the role/permission matrix (`utils/rbac.ts`), the Data Access Layer
(`services/api.ts`, in its two variants present in the repository), and the
Application Store mutations (`store/ProjectContext.tsx`).

The TypeScript code is embedded shallowly: every store action becomes a pure
function from an explicit `StoreState` to a new `StoreState` together with an
`Except String Unit` describing whether a rejection escapes the action
(`.error e` models an uncaught promise rejection).  Remote calls are modelled
by mirror collections (`remote*`) inside the state plus an outcome oracle
passed to each action (`none` = the remote call succeeds, `some e` = the
remote call fails with message `e`).  The single-threaded, sequential
semantics of one `async` store action is modelled by ordinary sequential
state passing.
-/

namespace VibeTrack

/-- `Status` enum from `types.ts`. -/
inductive Status where
  | TODO
  | IN_PROGRESS
  | IN_REVIEW
  | DONE
deriving DecidableEq

/-- `Priority` enum from `types.ts`. -/
inductive Priority where
  | LOW
  | MEDIUM
  | HIGH
  | CRITICAL
deriving DecidableEq

/-- `IssueType` enum from `types.ts`. -/
inductive IssueType where
  | STORY
  | TASK
  | BUG
deriving DecidableEq

/-- Sprint status string union `'ACTIVE' | 'PLANNED' | 'COMPLETED'` from `types.ts`. -/
inductive SprintStatus where
  | ACTIVE
  | PLANNED
  | COMPLETED
deriving DecidableEq

/-- Project type string union `'software' | 'marketing' | 'business'` from `types.ts`. -/
inductive ProjectType where
  | software
  | marketing
  | business
deriving DecidableEq

/-- `Comment` interface from `types.ts`. -/
structure Comment where
  id : String
  userId : String
  text : String
  createdAt : String
deriving DecidableEq

/-- `Subtask` interface from `types.ts`. -/
structure Subtask where
  id : String
  title : String
  completed : Bool
deriving DecidableEq

/-- `Attachment` interface from `types.ts`. -/
structure Attachment where
  id : String
  name : String
  type : String
  url : String
deriving DecidableEq

/-- `Issue` interface from `types.ts`.  Optional TypeScript fields
(`assigneeId?`, `sprintId?: string | null`, …) become `Option`s;
`sprintId = none` models both `undefined` and `null` (= backlog). -/
structure Issue where
  id : String
  projectId : String
  title : String
  description : String
  status : Status
  priority : Priority
  type : IssueType
  assigneeId : Option String
  reporterId : String
  comments : List Comment
  createdAt : String
  updatedAt : String
  summary : Option String
  sprintId : Option String
  epicId : Option String
  storyPoints : Option Nat
  subtasks : List Subtask
  attachments : List Attachment
deriving DecidableEq

/-- `Sprint` interface from `types.ts`. -/
structure Sprint where
  id : String
  projectId : String
  name : String
  startDate : Option String
  endDate : Option String
  status : SprintStatus
  goal : String
  capacity : Option Nat
deriving DecidableEq

/-- `Project` interface from `types.ts`. -/
structure Project where
  id : String
  workspaceId : String
  name : String
  key : String
  description : String
  leadId : String
  type : ProjectType
deriving DecidableEq

/-- `Team` interface from `types.ts`. -/
structure Team where
  id : String
  name : String
  workspaceId : String
  members : List String
  leadId : String
deriving DecidableEq

/-- `Workspace` interface from `types.ts`. -/
structure Workspace where
  id : String
  name : String
  ownerId : String
  members : List String
deriving DecidableEq

/-- `User` interface from `types.ts`; `role` is stored as a free string. -/
structure User where
  id : String
  name : String
  avatar : String
  email : String
  role : String
  workspaceIds : List String
deriving DecidableEq

/-- `Notification` interface from `types.ts` (type tag kept as a string). -/
structure Notif where
  id : String
  title : String
  message : String
  read : Bool
  createdAt : String
  type : String
deriving DecidableEq

/-- `Permission` enum from `types.ts`. -/
inductive Permission where
  | CREATE_PROJECT
  | DELETE_PROJECT
  | MANAGE_ACCESS
  | CREATE_SPRINT
  | MANAGE_SPRINT
  | CREATE_EPIC
  | CREATE_TASK
  | DELETE_TASK
  | ASSIGN_TASK
  | UPDATE_TASK_STATUS
  | MANAGE_TEAMS
deriving DecidableEq

/-- The string values of the `UserRole` enum from `types.ts`, in declaration
order (this is `Object.values(UserRole)` as used by `hasPermission`).
`UserRole.MEMBER` has the string value `"Developer"`. -/
def userRoleValues : List String :=
  ["Founder", "CTO", "CAO", "Admin", "Team Lead", "Product Manager",
   "Developer", "Designer", "QA Engineer", "Operations"]

/-- `ROLE_PERMISSIONS` from `utils/rbac.ts`: a record keyed by the role enum's
string values, mapping each role to its granted permissions. -/
def ROLE_PERMISSIONS : String → Option (List Permission) := fun key =>
  if key = "Founder" then some
    [.CREATE_PROJECT, .DELETE_PROJECT, .MANAGE_ACCESS, .CREATE_SPRINT,
     .MANAGE_SPRINT, .CREATE_EPIC, .CREATE_TASK, .DELETE_TASK, .ASSIGN_TASK,
     .UPDATE_TASK_STATUS, .MANAGE_TEAMS]
  else if key = "CTO" then some
    [.CREATE_SPRINT, .MANAGE_SPRINT, .CREATE_EPIC, .CREATE_TASK, .DELETE_TASK,
     .ASSIGN_TASK, .UPDATE_TASK_STATUS, .MANAGE_TEAMS]
  else if key = "CAO" then some
    [.CREATE_SPRINT, .MANAGE_SPRINT, .CREATE_TASK, .UPDATE_TASK_STATUS]
  else if key = "Product Manager" then some
    [.CREATE_SPRINT, .MANAGE_SPRINT, .CREATE_EPIC, .CREATE_TASK, .DELETE_TASK,
     .ASSIGN_TASK, .UPDATE_TASK_STATUS, .MANAGE_TEAMS]
  else if key = "Admin" then some
    [.MANAGE_ACCESS, .CREATE_SPRINT, .MANAGE_SPRINT, .CREATE_EPIC,
     .CREATE_TASK, .DELETE_TASK, .ASSIGN_TASK, .UPDATE_TASK_STATUS,
     .MANAGE_TEAMS]
  else if key = "Team Lead" then some
    [.CREATE_TASK, .ASSIGN_TASK, .UPDATE_TASK_STATUS]
  else if key = "Developer" then some
    [.UPDATE_TASK_STATUS]
  else if key = "Designer" then some
    [.UPDATE_TASK_STATUS]
  else if key = "QA Engineer" then some
    [.UPDATE_TASK_STATUS, .CREATE_TASK]
  else if key = "Operations" then some
    [.UPDATE_TASK_STATUS]
  else none

/-- `hasPermission` from `utils/rbac.ts`: look the role string up in the
closed enum value set, fall back to `UserRole.MEMBER` (string `"Developer"`)
when not found, then consult the permission table. -/
def hasPermission (userRole : String) (permission : Permission) : Bool :=
  let role := userRoleValues.find? (fun r => r = userRole)
  let effectiveRole := role.getD "Developer"
  match ROLE_PERMISSIONS effectiveRole with
  | some permissions => permissions.contains permission
  | none => false

/-- JavaScript `x || null` on a `string | null | undefined` value: the empty
string is falsy, so it collapses to `null` as well. -/
def jsOrNull : Option String → Option String
  | some s => if s = "" then none else some s
  | none => none

/-- JavaScript `x || d` on a `string | undefined` value with a string default. -/
def jsOrElse (o : Option String) (d : String) : String :=
  match o with
  | some s => if s = "" then d else s
  | none => d

/-- The payload normalization performed by `api.createIssue`/`api.updateIssue`
in `services/api.ts`: `sprintId: issue.sprintId || null` and likewise for
`epicId` and `assigneeId`. -/
def normalizePayload (i : Issue) : Issue :=
  { i with
    sprintId := jsOrNull i.sprintId
    epicId := jsOrNull i.epicId
    assigneeId := jsOrNull i.assigneeId }

/- The `else` (Supabase not configured) branch of each operation of the
canonical Data Access Layer variant (the `api` module with `updateTeam` and
`uploadFile`, the one imported by `store/ProjectContext.tsx`).  List
operations return `[]`; `createProject`, `createIssue` and `uploadFile`
throw `"Supabase not configured"`; every other write resolves silently. -/
namespace Api

def getUsers : List User := []

def getWorkspaces : List Workspace := []

def updateWorkspace (_workspace : Workspace) : Except String Unit := .ok ()

def getProjects (_workspaceId : String) : List Project := []

def createProject (_project : Project) : Except String Project :=
  .error "Supabase not configured"

def updateProject (_project : Project) : Except String Unit := .ok ()

def getIssues (_projectId : String) : List Issue := []

def createIssue (_issue : Issue) : Except String Issue :=
  .error "Supabase not configured"

def updateIssue (_issue : Issue) : Except String Unit := .ok ()

def deleteIssue (_issueId : String) : Except String Unit := .ok ()

def getSprints (_projectId : String) : List Sprint := []

def createSprint (sprint : Sprint) : Except String Sprint := .ok sprint

def updateSprint (_sprint : Sprint) : Except String Unit := .ok ()

def getEpics (_projectId : String) : List String := []

def getTeams (_workspaceId : String) : List Team := []

def createTeam (team : Team) : Except String Team := .ok team

def updateTeam (_team : Team) : Except String Unit := .ok ()

def getNotifications (_userId : String) : List Notif := []

def createNotification (_notif : Notif) : Except String Unit := .ok ()

def uploadFile (_fileName : String) : Except String String :=
  .error "Supabase not configured"

end Api

/-- The persisted shape read by the superseded `src/services/api.ts` variant
from local storage under the key `vibetrack-storage-v2`. -/
structure LocalData where
  users : List User
  workspaces : List Workspace
  projects : List Project
  issues : List Issue
  sprints : List Sprint
deriving DecidableEq

/- The `else` (Supabase not configured) branch of the superseded
`src/services/api.ts` variant: list operations read the local-storage cache
(empty when absent) and creates echo their input back as a success. -/
namespace ApiLocal

def getUsers (localData : Option LocalData) : List User :=
  match localData with
  | none => []
  | some d => d.users

def getProjects (localData : Option LocalData) (workspaceId : String) : List Project :=
  match localData with
  | none => []
  | some d => d.projects.filter (fun p => p.workspaceId = workspaceId)

def getIssues (localData : Option LocalData) (projectId : String) : List Issue :=
  match localData with
  | none => []
  | some d => d.issues.filter (fun i => i.projectId = projectId)

def createIssue (issue : Issue) : Except String Issue := .ok issue

def createProject (project : Project) : Except String Project := .ok project

def updateIssue (_issue : Issue) : Except String Unit := .ok ()

end ApiLocal

/-- Toast kind (`'success' | 'error' | 'info'`) from `ProjectContext.tsx`. -/
inductive ToastKind where
  | success
  | error
  | info
deriving DecidableEq

/-- A toast entry held in the store's `toasts` state (its auto-dismissal
timer is ephemeral UI behaviour and is not part of the state model). -/
structure Toast where
  id : String
  message : String
  type : ToastKind
deriving DecidableEq

/-- Spillover policy argument of `completeSprint`. -/
inductive Spillover where
  | BACKLOG
  | NEXT_SPRINT
deriving DecidableEq

/-- The Application Store state (`ProjectContext.tsx`): the in-memory
collections (`all*`, `workspaces`, `users`, `toasts`), the selection and
session state, mirror collections for the rows held by the remote data
service (`remote*`, written by successful Data Access Layer calls), a counter
of Data Access Layer invocations (`apiCalls`), and the two clock readings an
action can observe (`nowMs` for `Date.now()`, `nowIso` for
`new Date().toISOString()`). -/
structure StoreState where
  workspaces : List Workspace
  allProjects : List Project
  allIssues : List Issue
  allSprints : List Sprint
  allTeams : List Team
  users : List User
  toasts : List Toast
  currentUser : Option User
  activeWorkspaceId : String
  activeProjectId : String
  remoteWorkspaces : List Workspace
  remoteProjects : List Project
  remoteIssues : List Issue
  remoteSprints : List Sprint
  remoteTeams : List Team
  apiCalls : Nat
  nowMs : Nat
  nowIso : String
deriving DecidableEq

/-- Derived state `activeWorkspace` (`workspaces.find(w => w.id === activeWorkspaceId)`). -/
def activeWorkspace (st : StoreState) : Option Workspace :=
  st.workspaces.find? (fun w => w.id = st.activeWorkspaceId)

/-- Derived state `activeProject` (`allProjects.find(p => p.id === activeProjectId)`). -/
def activeProject (st : StoreState) : Option Project :=
  st.allProjects.find? (fun p => p.id = st.activeProjectId)

/-- `checkPermission` from `ProjectContext.tsx`. -/
def checkPermission (st : StoreState) (permission : Permission) : Bool :=
  match st.currentUser with
  | none => false
  | some currentUser => hasPermission currentUser.role permission

/-- `showToast`: append a toast whose id is `Date.now().toString()`. -/
def pushToast (st : StoreState) (message : String) (kind : ToastKind) : StoreState :=
  { st with toasts := st.toasts ++ [{ id := toString st.nowMs, message := message, type := kind }] }

/-- Effect of a successful `api.updateSprint` call: the remote row with the
sprint's id is replaced by the sprint object. -/
def apiUpdateSprintOk (st : StoreState) (s : Sprint) : StoreState :=
  { st with
    remoteSprints := st.remoteSprints.map (fun r => if r.id = s.id then s else r)
    apiCalls := st.apiCalls + 1 }

/-- Effect of a successful `api.updateTeam` call: only the `members` column
of the remote row is updated (`.update({ members: team.members })`). -/
def apiUpdateTeamOk (st : StoreState) (t : Team) : StoreState :=
  { st with
    remoteTeams := st.remoteTeams.map (fun r => if r.id = t.id then { r with members := t.members } else r)
    apiCalls := st.apiCalls + 1 }

/-- Effect of a successful `api.updateWorkspace` call: only the `members`
column of the remote row is updated. -/
def apiUpdateWorkspaceOk (st : StoreState) (w : Workspace) : StoreState :=
  { st with
    remoteWorkspaces := st.remoteWorkspaces.map (fun r => if r.id = w.id then { r with members := w.members } else r)
    apiCalls := st.apiCalls + 1 }

/-- The subset of `Partial<Issue>` actually passed to `updateIssue` by the
program's call sites (board drag, issue modal, backlog moves, `addComment`,
`completeSprint`).  No call site updates `id`, `projectId`, `reporterId` or
the timestamps.  A field set to `some none` models an explicit
`null`/`undefined` assignment in the update object. -/
structure IssueUpdate where
  title : Option String := none
  description : Option String := none
  status : Option Status := none
  priority : Option Priority := none
  assigneeId : Option (Option String) := none
  summary : Option (Option String) := none
  sprintId : Option (Option String) := none
  epicId : Option (Option String) := none
  storyPoints : Option (Option Nat) := none
  comments : Option (List Comment) := none
  subtasks : Option (List Subtask) := none
  attachments : Option (List Attachment) := none
deriving DecidableEq

/-- `{ ...updatedIssue, ...updates, updatedAt: new Date().toISOString() }`. -/
def applyIssueUpdate (i : Issue) (u : IssueUpdate) (nowIso : String) : Issue :=
  { i with
    title := u.title.getD i.title
    description := u.description.getD i.description
    status := u.status.getD i.status
    priority := u.priority.getD i.priority
    assigneeId := u.assigneeId.getD i.assigneeId
    summary := u.summary.getD i.summary
    sprintId := u.sprintId.getD i.sprintId
    epicId := u.epicId.getD i.epicId
    storyPoints := u.storyPoints.getD i.storyPoints
    comments := u.comments.getD i.comments
    subtasks := u.subtasks.getD i.subtasks
    attachments := u.attachments.getD i.attachments
    updatedAt := nowIso }

/-- `updateIssue` from `ProjectContext.tsx`, with the collection the React
closure captured passed explicitly as `orig`: the pre-image lookup
(`allIssues.find`) reads `orig`, while the two `setAllIssues` functional
updates act on the current collection.  A standalone invocation has
`orig = st.allIssues`; inside `completeSprint`'s loop `orig` stays the
collection captured when `completeSprint` was rendered. -/
def updateIssueFrom (orig : List Issue) (fail? : Option String) (st : StoreState)
    (id : String) (updates : IssueUpdate) : StoreState × Except String Unit :=
  match orig.find? (fun i => i.id = id) with
  | none => (st, .ok ())
  | some updatedIssue =>
    let newItem := applyIssueUpdate updatedIssue updates st.nowIso
    let st1 := { st with allIssues := st.allIssues.map (fun (issue : Issue) => if issue.id = id then newItem else issue) }
    match fail? with
    | none =>
      ({ st1 with
          remoteIssues := st1.remoteIssues.map (fun (r : Issue) => if r.id = newItem.id then normalizePayload newItem else r)
          apiCalls := st1.apiCalls + 1 }, .ok ())
    | some _ =>
      (pushToast
        { st1 with
            allIssues := st1.allIssues.map (fun (issue : Issue) => if issue.id = id then updatedIssue else issue)
            apiCalls := st1.apiCalls + 1 }
        "Failed to update issue" .error, .ok ())

/-- `updateIssue` invoked directly (the closure's captured collection is the
current one). -/
def updateIssue (fail? : Option String) (st : StoreState) (id : String)
    (updates : IssueUpdate) : StoreState × Except String Unit :=
  updateIssueFrom st.allIssues fail? st id updates

/-- `deleteIssue` from `ProjectContext.tsx`: snapshot the whole collection,
remove optimistically, and restore the snapshot when the remote delete fails. -/
def deleteIssue (fail? : Option String) (st : StoreState) (id : String) :
    StoreState × Except String Unit :=
  let previousIssues := st.allIssues
  let st1 := { st with allIssues := st.allIssues.filter (fun i => ¬ i.id = id) }
  match fail? with
  | none =>
    (pushToast
      { st1 with
          remoteIssues := st1.remoteIssues.filter (fun i => ¬ i.id = id)
          apiCalls := st1.apiCalls + 1 }
      "Issue deleted" .success, .ok ())
  | some _ =>
    (pushToast { st1 with allIssues := previousIssues, apiCalls := st1.apiCalls + 1 }
      "Failed to delete issue" .error, .ok ())

/-- The `Omit<Issue, 'id' | 'createdAt' | 'updatedAt' | 'comments' | 'subtasks'
| 'attachments' | 'projectId'>` argument of `addIssue`. -/
structure NewIssueData where
  title : String
  description : String
  status : Status
  priority : Priority
  type : IssueType
  assigneeId : Option String := none
  reporterId : String
  summary : Option String := none
  sprintId : Option String := none
  epicId : Option String := none
  storyPoints : Option Nat := none
deriving DecidableEq

/-- `Date.now().toString().slice(-4)`. -/
def sliceLast4 (s : String) : String := s.drop (s.length - 4)

/-- The client-generated readable issue id: `` `${activeProject.key}-${suffix}` ``
with `suffix = Date.now().toString().slice(-4)`. -/
def issueReadableId (key : String) (nowMs : Nat) : String :=
  key ++ "-" ++ sliceLast4 (toString nowMs)

/-- `addIssue` from `ProjectContext.tsx`.  The remote insert payload
`{ ...newIssue, projectId, id }` omits `comments`/`subtasks`/`attachments`
and the timestamps, so the server-echoed row is modelled with empty defaults
for those columns; the reconciliation guard `i !== issue` (reference
inequality) holds exactly for the entries that were present before the
optimistic append. -/
def addIssue (fail? : Option String) (st : StoreState) (d : NewIssueData) :
    StoreState × Except String Unit :=
  match activeProject st with
  | none => (st, .ok ())
  | some proj =>
    let readableId := issueReadableId proj.key st.nowMs
    let issue : Issue :=
      { id := readableId, projectId := proj.id, title := d.title,
        description := d.description, status := d.status, priority := d.priority,
        type := d.type, assigneeId := d.assigneeId, reporterId := d.reporterId,
        comments := [], createdAt := st.nowIso, updatedAt := st.nowIso,
        summary := d.summary, sprintId := d.sprintId, epicId := d.epicId,
        storyPoints := d.storyPoints, subtasks := [], attachments := [] }
    let st1 := pushToast { st with allIssues := st.allIssues ++ [issue] } "Issue created" .success
    match fail? with
    | some _ =>
      (pushToast
        { st1 with
            allIssues := st1.allIssues.filter (fun i => ¬ i.id = readableId)
            apiCalls := st1.apiCalls + 1 }
        "Failed to create issue on server" .error, .ok ())
    | none =>
      let createdIssue : Issue :=
        normalizePayload { issue with createdAt := "", updatedAt := "" }
      let st2 := { st1 with
        remoteIssues := st1.remoteIssues ++ [createdIssue]
        apiCalls := st1.apiCalls + 1 }
      if st.allIssues.any (fun i => i.id = createdIssue.id) then
        ({ st2 with allIssues := st2.allIssues.filter (fun i => ¬ i.id = readableId) }, .ok ())
      else
        ({ st2 with allIssues := st2.allIssues.map (fun i => if i.id = readableId then createdIssue else i) }, .ok ())

/-- `addComment` from `ProjectContext.tsx`: build the comment and delegate to
`updateIssue` with the extended comment list. -/
def addComment (fail? : Option String) (st : StoreState) (issueId text userId : String) :
    StoreState × Except String Unit :=
  match st.allIssues.find? (fun i => i.id = issueId) with
  | none => (st, .ok ())
  | some issue =>
    let newComment : Comment :=
      { id := "c-" ++ toString st.nowMs, text := text, userId := userId, createdAt := st.nowIso }
    updateIssue fail? st issueId { comments := some (issue.comments ++ [newComment]) }

/-- `createSprint` from `ProjectContext.tsx`: no try/catch around
`api.createSprint`, and no local collection update on success (the local copy
arrives through the realtime INSERT echo). -/
def createSprint (fail? : Option String) (st : StoreState) (name goal : String)
    (capacity : Nat := 30) : StoreState × Except String Unit :=
  match activeProject st with
  | none => (st, .ok ())
  | some proj =>
    let newSprint : Sprint :=
      { id := "sp-" ++ toString st.nowMs, projectId := proj.id, name := name,
        goal := goal, status := .PLANNED, capacity := some capacity,
        startDate := none, endDate := none }
    match fail? with
    | some e => ({ st with apiCalls := st.apiCalls + 1 }, .error e)
    | none =>
      (pushToast
        { st with remoteSprints := st.remoteSprints ++ [newSprint], apiCalls := st.apiCalls + 1 }
        "Sprint created" .success, .ok ())

/-- `startSprint` from `ProjectContext.tsx`: no try/catch around
`api.updateSprint`, and no local sprint update on success. -/
def startSprint (fail? : Option String) (st : StoreState)
    (sprintId startDate endDate : String) (goal : Option String) :
    StoreState × Except String Unit :=
  match st.allSprints.find? (fun s => s.id = sprintId) with
  | none => (st, .ok ())
  | some sprint =>
    let updatedSprint : Sprint :=
      { sprint with
          status := .ACTIVE
          startDate := some startDate
          endDate := some endDate
          goal := jsOrElse goal sprint.goal }
    match fail? with
    | some e => ({ st with apiCalls := st.apiCalls + 1 }, .error e)
    | none =>
      (pushToast (apiUpdateSprintOk st updatedSprint) (sprint.name ++ " started!") .success, .ok ())

/-- `completeSprint` from `ProjectContext.tsx`.  `failS` is the outcome of the
`api.updateSprint` call (uncaught when it fails); `failI` gives the outcome of
the `api.updateIssue` call issued for each moved issue (each one caught inside
`updateIssue`).  The spillover destination is the first sprint of the active
project with status PLANNED in collection order; the loop updates every issue
of the completed sprint whose status is not DONE, each through the
`updateIssue` closure that captured the pre-call `allIssues`. -/
def completeSprint (failS : Option String) (failI : String → Option String)
    (st : StoreState) (sprintId : String) (spilloverAction : Spillover) :
    StoreState × Except String Unit :=
  match st.allSprints.find? (fun s => s.id = sprintId) with
  | none => (st, .ok ())
  | some sprint =>
    match failS with
    | some e => ({ st with apiCalls := st.apiCalls + 1 }, .error e)
    | none =>
      let st1 := apiUpdateSprintOk st { sprint with status := .COMPLETED }
      let nextSprintId : Option String :=
        match spilloverAction with
        | .NEXT_SPRINT =>
          match (st.allSprints.filter (fun s => s.projectId = st.activeProjectId ∧ s.status = SprintStatus.PLANNED)).head? with
          | some s => some s.id
          | none => none
        | .BACKLOG => none
      let issuesToMove := st.allIssues.filter (fun i => i.sprintId = some sprintId ∧ ¬ i.status = Status.DONE)
      let stFinal := issuesToMove.foldl
        (fun acc issue => (updateIssueFrom st.allIssues (failI issue.id) acc issue.id { sprintId := some nextSprintId }).1)
        st1
      (pushToast stFinal "Sprint completed!" .success, .ok ())

/-- `createTeam` from `ProjectContext.tsx`: no try/catch, local append only
after the remote create resolved. -/
def createTeam (fail? : Option String) (st : StoreState) (name : String)
    (memberIds : List String) : StoreState × Except String Unit :=
  match activeWorkspace st, st.currentUser with
  | some ws, some currentUser =>
    let newTeam : Team :=
      { id := "t-" ++ toString st.nowMs, workspaceId := ws.id, name := name,
        leadId := currentUser.id, members := memberIds }
    match fail? with
    | some e => ({ st with apiCalls := st.apiCalls + 1 }, .error e)
    | none =>
      (pushToast
        { st with
            remoteTeams := st.remoteTeams ++ [newTeam]
            allTeams := st.allTeams ++ [newTeam]
            apiCalls := st.apiCalls + 1 }
        "Team created" .success, .ok ())
  | _, _ => (st, .ok ())

/-- `addMemberToTeam` from `ProjectContext.tsx`: no-op when the team is
missing or already contains the member; otherwise optimistic append, remote
`updateTeam`, and revert (with an error toast) when the remote call fails. -/
def addMemberToTeam (fail? : Option String) (st : StoreState) (teamId userId : String) :
    StoreState × Except String Unit :=
  match st.allTeams.find? (fun t => t.id = teamId) with
  | none => (st, .ok ())
  | some team =>
    if userId ∈ team.members then (st, .ok ())
    else
      let updatedTeam := { team with members := team.members ++ [userId] }
      let st1 := { st with allTeams := st.allTeams.map (fun t => if t.id = teamId then updatedTeam else t) }
      match fail? with
      | none => (pushToast (apiUpdateTeamOk st1 updatedTeam) "Member added" .success, .ok ())
      | some _ =>
        (pushToast
          { st1 with
              allTeams := st1.allTeams.map (fun t => if t.id = teamId then team else t)
              apiCalls := st1.apiCalls + 1 }
          "Failed to add member" .error, .ok ())

/-- `removeMemberFromTeam` from `ProjectContext.tsx`. -/
def removeMemberFromTeam (fail? : Option String) (st : StoreState) (teamId userId : String) :
    StoreState × Except String Unit :=
  match st.allTeams.find? (fun t => t.id = teamId) with
  | none => (st, .ok ())
  | some team =>
    let updatedTeam := { team with members := team.members.filter (fun id => ¬ id = userId) }
    let st1 := { st with allTeams := st.allTeams.map (fun t => if t.id = teamId then updatedTeam else t) }
    match fail? with
    | none => (pushToast (apiUpdateTeamOk st1 updatedTeam) "Member removed" .success, .ok ())
    | some _ =>
      (pushToast
        { st1 with
            allTeams := st1.allTeams.map (fun t => if t.id = teamId then team else t)
            apiCalls := st1.apiCalls + 1 }
        "Failed to remove member" .error, .ok ())

/-- `inviteUser` from `ProjectContext.tsx`: no try/catch around
`api.updateWorkspace`. -/
def inviteUser (fail? : Option String) (st : StoreState) (email : String) :
    StoreState × Except String Unit :=
  match activeWorkspace st with
  | none => (st, .ok ())
  | some ws =>
    match st.users.find? (fun u => u.email = email) with
    | some existingUser =>
      if existingUser.id ∈ ws.members then
        (pushToast st (email ++ " is already in the workspace.") .info, .ok ())
      else
        let updatedWorkspace := { ws with members := ws.members ++ [existingUser.id] }
        match fail? with
        | some e => ({ st with apiCalls := st.apiCalls + 1 }, .error e)
        | none =>
          (pushToast
            { (apiUpdateWorkspaceOk st updatedWorkspace) with
                workspaces := st.workspaces.map (fun w => if w.id = updatedWorkspace.id then updatedWorkspace else w) }
            (email ++ " added to workspace.") .success, .ok ())
    | none =>
      (pushToast st ("User " ++ email ++ " not found in system. They must sign up first.") .info, .ok ())

/-- `updateProjectInfo` from `ProjectContext.tsx`: no guard, no try/catch. -/
def updateProjectInfo (fail? : Option String) (st : StoreState) (info : Project) :
    StoreState × Except String Unit :=
  match fail? with
  | some e => ({ st with apiCalls := st.apiCalls + 1 }, .error e)
  | none =>
    (pushToast
      { st with
          remoteProjects := st.remoteProjects.map (fun r => if r.id = info.id then info else r)
          allProjects := st.allProjects.map (fun p => if p.id = info.id then info else p)
          apiCalls := st.apiCalls + 1 }
      "Project updated" .success, .ok ())

/-- `createProject` from `ProjectContext.tsx`.  `profileMissing` and
`recoveryFails` give the outcomes of the self-healing profile verification
(direct Supabase calls, not Data Access Layer calls); `wsFail` the outcome of
the automatic workspace insert when no workspace is active; `projFail` the
outcome of `api.createProject` (caught).  The permission check runs only when
at least one project is already loaded. -/
def createProject (profileMissing recoveryFails : Bool) (wsFail projFail : Option String)
    (st : StoreState) (name key description : String) (ptype : ProjectType) :
    StoreState × Except String Unit :=
  match st.currentUser with
  | none => (st, .ok ())
  | some currentUser =>
    if profileMissing ∧ recoveryFails then
      (pushToast st "Account Error: We couldn't verify your profile. Please try refreshing." .error, .ok ())
    else
      let wsStep : Option (StoreState × String) :=
        if st.activeWorkspaceId = "" then
          let newWsId := "ws-" ++ toString st.nowMs
          let newWorkspace : Workspace :=
            { id := newWsId, name := currentUser.name ++ "'s Workspace",
              ownerId := currentUser.id, members := [currentUser.id] }
          match wsFail with
          | some _ => none
          | none =>
            some ({ st with
                      workspaces := st.workspaces ++ [newWorkspace]
                      remoteWorkspaces := st.remoteWorkspaces ++ [newWorkspace]
                      activeWorkspaceId := newWsId }, newWsId)
        else some (st, st.activeWorkspaceId)
      match wsStep, wsFail with
      | none, some e =>
        (pushToast st ("Failed to create default workspace: " ++ e) .error, .ok ())
      | none, none => (st, .ok ())
      | some (st2, targetWorkspaceId), _ =>
        if 0 < st2.allProjects.length ∧ ¬ checkPermission st2 Permission.CREATE_PROJECT then
          (pushToast st2 "You do not have permission to create projects." .error, .ok ())
        else
          let newProject : Project :=
            { id := "p-" ++ toString st.nowMs, workspaceId := targetWorkspaceId,
              name := name, key := key, description := description,
              type := ptype, leadId := currentUser.id }
          match projFail with
          | some e =>
            (pushToast { st2 with apiCalls := st2.apiCalls + 1 }
              ("Failed to create project: " ++ e) .error, .ok ())
          | none =>
            (pushToast
              { st2 with
                  remoteProjects := st2.remoteProjects ++ [newProject]
                  allProjects := st2.allProjects ++ [newProject]
                  activeProjectId := newProject.id
                  apiCalls := st2.apiCalls + 1 }
              "Project created successfully" .success, .ok ())

/-!  Concrete fixtures used by witnesses and counterexamples. -/

/-- A concrete user. -/
def user0 : User :=
  { id := "u1", name := "Alex", avatar := "", email := "alex@vibetrack.com",
    role := "Founder", workspaceIds := ["w1"] }

/-- A concrete workspace owned by `user0`. -/
def workspace0 : Workspace :=
  { id := "w1", name := "Acme", ownerId := "u1", members := ["u1"] }

/-- A concrete project with key `PROJ`. -/
def project0 : Project :=
  { id := "p1", workspaceId := "w1", name := "Proj", key := "PROJ",
    description := "", leadId := "u1", type := .software }

/-- A concrete issue builder (fields other than id/sprint/status fixed). -/
def mkIssue (id : String) (sprintId : Option String) (status : Status) : Issue :=
  { id := id, projectId := "p1", title := "t", description := "",
    status := status, priority := .MEDIUM, type := .TASK, assigneeId := none,
    reporterId := "u1", comments := [], createdAt := "2026-01-01",
    updatedAt := "2026-01-01", summary := none, sprintId := sprintId,
    epicId := none, storyPoints := none, subtasks := [], attachments := [] }

/-- A concrete sprint builder. -/
def mkSprint (id : String) (status : SprintStatus) : Sprint :=
  { id := id, projectId := "p1", name := "Sprint " ++ id, startDate := none,
    endDate := none, status := status, goal := "", capacity := some 30 }

/-- A concrete base store state: one workspace, one project selected, clock
frozen at `1700000000000` ms. -/
def baseState : StoreState :=
  { workspaces := [workspace0], allProjects := [project0], allIssues := [],
    allSprints := [], allTeams := [], users := [user0], toasts := [],
    currentUser := some user0, activeWorkspaceId := "w1",
    activeProjectId := "p1", remoteWorkspaces := [workspace0],
    remoteProjects := [project0], remoteIssues := [], remoteSprints := [],
    remoteTeams := [], apiCalls := 0, nowMs := 1700000000000,
    nowIso := "2026-01-01T00:00:00.000Z" }

/-- A concrete `addIssue` argument. -/
def newIssue0 : NewIssueData :=
  { title := "Fix login bug", description := "", status := .TODO,
    priority := .HIGH, type := .BUG, reporterId := "u1" }

/-!  ## C4 — permission matrix: unknown roles fall back to `"Developer"` -/

/-- C4: `hasPermission` is a pure total function of its two arguments
(determinism and absence of exceptions are intrinsic to the embedding), and
for every role string outside the closed `UserRole` value set it behaves
identically to the most restrictive defined role, `UserRole.MEMBER`
(string value `"Developer"`). -/
theorem hasPermission_unknown_role_fallback (r : String) (c : Permission)
    (h : r ∉ userRoleValues) :
    hasPermission r c = hasPermission "Developer" c := by
  have hnone : userRoleValues.find? (fun x => x = r) = none := by
    rw [List.find?_eq_none]
    intro x hx
    simp only [decide_eq_true_eq]
    exact fun hxr => h (hxr ▸ hx)
  have hdev : userRoleValues.find? (fun x => x = "Developer") = some "Developer" := by decide
  simp only [hasPermission, hnone, hdev, Option.getD_none, Option.getD_some]

/-- Witness for C4 at the concrete unknown role `"Intern"`. -/
theorem hasPermission_unknown_role_fallback_witness :
    "Intern" ∉ userRoleValues ∧
      hasPermission "Intern" Permission.CREATE_PROJECT
        = hasPermission "Developer" Permission.CREATE_PROJECT :=
  ⟨by decide, hasPermission_unknown_role_fallback "Intern" Permission.CREATE_PROJECT (by decide)⟩

/-!  ## C5 — Data Access Layer behaviour when the service is not configured -/

/-- Counterexample for C5 as stated: when the service is not configured, the
write operation `updateIssue` succeeds silently in the canonical Data Access
Layer variant instead of failing fast, `createIssue` of the
`src/services/api.ts` variant echoes its input as a success, and that
variant's `getIssues` returns the non-empty local-storage cache. -/
theorem api_not_configured_counterexample :
    Api.updateIssue (mkIssue "PROJ-1" none .TODO) = Except.ok () ∧
      ApiLocal.createIssue (mkIssue "PROJ-1" none .TODO)
        = Except.ok (mkIssue "PROJ-1" none .TODO) ∧
      ApiLocal.getIssues
          (some { users := [], workspaces := [], projects := [],
                  issues := [mkIssue "PROJ-1" none .TODO], sprints := [] }) "p1"
        ≠ [] := by
  refine ⟨rfl, rfl, ?_⟩
  decide

/-- C5 (amended): when the service is not configured, the canonical Data
Access Layer variant returns empty collections from every list operation and
fails fast with `"Supabase not configured"` from `createProject`,
`createIssue` and `uploadFile`, while every remaining write operation
(`updateWorkspace`, `updateProject`, `updateIssue`, `deleteIssue`,
`createSprint`, `updateSprint`, `createTeam`, `updateTeam`,
`createNotification`) resolves silently without an error. -/
theorem api_not_configured_behaviour (wid pid uid f : String) (p : Project)
    (i : Issue) (s : Sprint) (t : Team) (w : Workspace) (n : Notif) :
    Api.getUsers = [] ∧ Api.getWorkspaces = [] ∧ Api.getProjects wid = [] ∧
      Api.getIssues pid = [] ∧ Api.getSprints pid = [] ∧
      Api.getTeams wid = [] ∧ Api.getNotifications uid = [] ∧
      Api.createProject p = .error "Supabase not configured" ∧
      Api.createIssue i = .error "Supabase not configured" ∧
      Api.uploadFile f = .error "Supabase not configured" ∧
      Api.updateWorkspace w = .ok () ∧ Api.updateProject p = .ok () ∧
      Api.updateIssue i = .ok () ∧ Api.deleteIssue pid = .ok () ∧
      Api.createSprint s = .ok s ∧ Api.updateSprint s = .ok () ∧
      Api.createTeam t = .ok t ∧ Api.updateTeam t = .ok () ∧
      Api.createNotification n = .ok () := by
  repeat constructor

/-!  ## C8 — client-side issue-id generation under an identical clock -/

/-- C8: the generated issue id is a pure function of the project key and the
millisecond clock (`` `${key}-${Date.now().toString().slice(-4)}` ``), so two
`addIssue` invocations that observe the same clock generate the SAME id, not
distinct ones.  Evaluated at the failing input: from `baseState` (clock
frozen at 1700000000000) the first creation yields the single id
`"PROJ-0000"`, and the second creation generates the same id — its
reconciliation step then even removes both copies from the collection. -/
theorem addIssue_same_millisecond_id_collision :
    issueReadableId "PROJ" baseState.nowMs = "PROJ-0000" ∧
      (addIssue none baseState newIssue0).1.allIssues.map Issue.id = ["PROJ-0000"] ∧
      issueReadableId "PROJ" ((addIssue none baseState newIssue0).1).nowMs = "PROJ-0000" ∧
      (addIssue none (addIssue none baseState newIssue0).1 newIssue0).1.allIssues = [] := by
  refine ⟨by decide, by decide, by decide, by decide⟩

/-!  ## C1 — optimistic mutations restore the exact prior collection on failure -/

/-- `applyIssueUpdate` never changes the issue id (no call site passes `id`
inside the update object). -/
theorem applyIssueUpdate_id (i : Issue) (u : IssueUpdate) (iso : String) :
    (applyIssueUpdate i u iso).id = i.id := rfl

/-- Replacing the entry with a given id and then mapping it back to the
pre-image found for that id restores the original list, provided ids are
injective on the list. -/
theorem map_replace_rollback (l : List Issue)
    (hinj : ∀ x ∈ l, ∀ y ∈ l, x.id = y.id → x = y)
    (id : String) (u newItem : Issue)
    (hfind : l.find? (fun i => i.id = id) = some u)
    (hid : newItem.id = id) :
    (l.map (fun i => if i.id = id then newItem else i)).map
      (fun i => if i.id = id then u else i) = l := by
  rw [List.map_map]
  have hu_mem : u ∈ l := List.mem_of_find?_eq_some hfind
  have hu_id : u.id = id := by simpa using List.find?_some hfind
  have hpt : ∀ x ∈ l,
      ((fun i => if i.id = id then u else i) ∘ fun i => if i.id = id then newItem else i) x
        = x := by
    intro x hx
    simp only [Function.comp_apply]
    by_cases hxid : x.id = id
    · rw [if_pos hxid, if_pos hid]
      exact hinj u hu_mem x hx (hu_id.trans hxid.symm)
    · rw [if_neg hxid, if_neg hxid]
  have h2 := List.map_congr_left hpt
  rw [h2, List.map_id']

/-- Failure path of `updateIssue`: the rollback restores the pre-mutation
collection exactly. -/
theorem updateIssue_fail_allIssues (st : StoreState) (e id : String)
    (upd : IssueUpdate) (hnodup : (st.allIssues.map Issue.id).Nodup) :
    (updateIssue (some e) st id upd).1.allIssues = st.allIssues := by
  unfold updateIssue updateIssueFrom
  cases hfind : st.allIssues.find? (fun i => i.id = id) with
  | none => rfl
  | some u =>
    dsimp only [pushToast]
    have hu_id : u.id = id := by simpa using List.find?_some hfind
    exact map_replace_rollback st.allIssues
      (fun x hx y hy => List.inj_on_of_nodup_map hnodup hx hy) id u _ hfind
      ((applyIssueUpdate_id u upd st.nowIso).trans hu_id)

/-- Failure path of `deleteIssue`: the snapshot restore is exact. -/
theorem deleteIssue_fail_allIssues (st : StoreState) (e id : String) :
    (deleteIssue (some e) st id).1.allIssues = st.allIssues := rfl

/-- Failure path of `addIssue`: removing the optimistically appended issue by
its generated id restores the pre-mutation collection exactly, provided the
generated id was fresh. -/
theorem addIssue_fail_allIssues (st : StoreState) (e : String) (d : NewIssueData)
    (hfresh : ∀ p, activeProject st = some p →
      issueReadableId p.key st.nowMs ∉ st.allIssues.map Issue.id) :
    (addIssue (some e) st d).1.allIssues = st.allIssues := by
  unfold addIssue
  cases hap : activeProject st with
  | none => rfl
  | some p =>
    dsimp only [pushToast]
    rw [List.filter_append]
    have hid := hfresh p hap
    have h1 : ∀ a ∈ st.allIssues,
        (decide (¬ a.id = issueReadableId p.key st.nowMs)) = true := by
      intro a ha
      simp only [decide_not, Bool.not_eq_true', decide_eq_false_iff_not]
      intro hcontra
      exact hid (hcontra ▸ List.mem_map_of_mem Issue.id ha)
    rw [List.filter_eq_self.mpr h1]
    simp

/-- C1: for each of the three issue mutations whose remote Data Access Layer
call fails (`updateIssue`, `deleteIssue`, `addIssue`), the issue collection
after the rollback equals — element for element, in the same order — the
collection immediately before the optimistic mutation, under the data-model
invariants that issue ids are unique and the freshly generated id is unused. -/
theorem optimistic_rollback_exact (st : StoreState) (e id : String)
    (upd : IssueUpdate) (d : NewIssueData)
    (hnodup : (st.allIssues.map Issue.id).Nodup)
    (hfresh : ∀ p, activeProject st = some p →
      issueReadableId p.key st.nowMs ∉ st.allIssues.map Issue.id) :
    (updateIssue (some e) st id upd).1.allIssues = st.allIssues ∧
      (deleteIssue (some e) st id).1.allIssues = st.allIssues ∧
      (addIssue (some e) st d).1.allIssues = st.allIssues :=
  ⟨updateIssue_fail_allIssues st e id upd hnodup,
   deleteIssue_fail_allIssues st e id,
   addIssue_fail_allIssues st e d hfresh⟩

/-- Witness for C1: a concrete state holding one issue, a failing update of
its status, a failing delete, and a failing create. -/
theorem optimistic_rollback_exact_witness :
    (updateIssue (some "boom") { baseState with allIssues := [mkIssue "PROJ-1" none .TODO] }
        "PROJ-1" { status := some .DONE }).1.allIssues
      = [mkIssue "PROJ-1" none .TODO] ∧
    (deleteIssue (some "boom") { baseState with allIssues := [mkIssue "PROJ-1" none .TODO] }
        "PROJ-1").1.allIssues = [mkIssue "PROJ-1" none .TODO] ∧
    (addIssue (some "boom") { baseState with allIssues := [mkIssue "PROJ-1" none .TODO] }
        newIssue0).1.allIssues = [mkIssue "PROJ-1" none .TODO] :=
  optimistic_rollback_exact { baseState with allIssues := [mkIssue "PROJ-1" none .TODO] }
    "boom" "PROJ-1" { status := some .DONE } newIssue0
    (by decide)
    (by
      intro p hp
      have hp0 : p = project0 := by
        have h0 : activeProject { baseState with allIssues := [mkIssue "PROJ-1" none .TODO] }
            = some project0 := by decide
        exact Option.some.inj (hp.symm.trans h0)
      subst hp0
      decide)

/-!  ## C10 — `addMemberToTeam` is an idempotent, duplicate-free no-op guard -/

/-- After replacing every entry with a given id by `v` (itself carrying that
id), `find?` by that id returns `v`. -/
theorem find?_map_replace (l : List Team) (tid : String) (v : Team)
    (hv : v.id = tid) :
    ∀ t : Team, l.find? (fun x => x.id = tid) = some t →
      (l.map (fun x => if x.id = tid then v else x)).find? (fun x => x.id = tid)
        = some v := by
  induction l with
  | nil => intro t ht; simp at ht
  | cons a l ih =>
    intro t ht
    by_cases ha : a.id = tid
    · simp only [List.map_cons, if_pos ha]
      rw [List.find?_cons_of_pos _ (by simpa using hv)]
    · simp only [List.map_cons, if_neg ha]
      rw [List.find?_cons_of_neg _ (by simpa using ha)]
      rw [List.find?_cons_of_neg _ (by simpa using ha)] at ht
      exact ih t ht

/-- The success path of `addMemberToTeam` replaces the team's entries and
reports no error. -/
theorem addMemberToTeam_ok_spec (st : StoreState) (teamId userId : String)
    (team : Team)
    (hfind : st.allTeams.find? (fun t => t.id = teamId) = some team)
    (hm : userId ∉ team.members) :
    (addMemberToTeam none st teamId userId).1.allTeams
        = st.allTeams.map
            (fun t => if t.id = teamId then { team with members := team.members ++ [userId] } else t) ∧
      (addMemberToTeam none st teamId userId).2 = .ok () := by
  unfold addMemberToTeam
  rw [hfind]
  dsimp only
  rw [if_neg hm]
  exact ⟨rfl, rfl⟩

/-- C10: `addMemberToTeam` is total and idempotent at the Store boundary —
a missing team or an already-present member produces the identical state
(no optimistic change, no remote call, no toast), applying the action twice
(successfully) equals applying it once, and the action never introduces a
duplicate member id. -/
theorem addMemberToTeam_idempotent_total (fail? : Option String)
    (st : StoreState) (teamId userId : String) :
    (st.allTeams.find? (fun t => t.id = teamId) = none →
        addMemberToTeam fail? st teamId userId = (st, Except.ok ())) ∧
      (∀ team, st.allTeams.find? (fun t => t.id = teamId) = some team →
        userId ∈ team.members →
        addMemberToTeam fail? st teamId userId = (st, Except.ok ())) ∧
      (addMemberToTeam none (addMemberToTeam none st teamId userId).1 teamId userId
        = addMemberToTeam none st teamId userId) ∧
      ((∀ tm ∈ st.allTeams, tm.members.Nodup) →
        ∀ tm' ∈ (addMemberToTeam fail? st teamId userId).1.allTeams, tm'.members.Nodup) := by
  refine ⟨?_, ?_, ?_, ?_⟩
  · intro h
    unfold addMemberToTeam
    rw [h]
  · intro team hfind hm
    unfold addMemberToTeam
    rw [hfind]
    dsimp only
    rw [if_pos hm]
  · cases hfind : st.allTeams.find? (fun t => t.id = teamId) with
    | none =>
      have h1 : addMemberToTeam none st teamId userId = (st, Except.ok ()) := by
        unfold addMemberToTeam; rw [hfind]
      rw [h1]
      exact h1
    | some team =>
      by_cases hm : userId ∈ team.members
      · have h1 : addMemberToTeam none st teamId userId = (st, Except.ok ()) := by
          unfold addMemberToTeam; rw [hfind]; dsimp only; rw [if_pos hm]
        rw [h1]
        exact h1
      · obtain ⟨h1, h2⟩ := addMemberToTeam_ok_spec st teamId userId team hfind hm
        have hteam_id : team.id = teamId := by simpa using List.find?_some hfind
        have hfind2 : ((addMemberToTeam none st teamId userId).1.allTeams).find?
            (fun t => t.id = teamId) = some { team with members := team.members ++ [userId] } := by
          rw [h1]
          exact find?_map_replace st.allTeams teamId _ hteam_id team hfind
        have h3 : ∀ S : StoreState,
            S.allTeams.find? (fun t => t.id = teamId)
                = some { team with members := team.members ++ [userId] } →
            addMemberToTeam none S teamId userId = (S, Except.ok ()) := by
          intro S hfindS
          unfold addMemberToTeam
          rw [hfindS]
          dsimp only
          rw [if_pos (List.mem_append_right team.members (List.mem_singleton_self userId))]
        rw [h3 (addMemberToTeam none st teamId userId).1 hfind2, ← h2]
  · intro hnd tm' hmem
    cases hfind : st.allTeams.find? (fun t => t.id = teamId) with
    | none =>
      have h1 : addMemberToTeam fail? st teamId userId = (st, Except.ok ()) := by
        unfold addMemberToTeam; rw [hfind]
      rw [h1] at hmem
      exact hnd tm' hmem
    | some team =>
      by_cases hm : userId ∈ team.members
      · have h1 : addMemberToTeam fail? st teamId userId = (st, Except.ok ()) := by
          unfold addMemberToTeam; rw [hfind]; dsimp only; rw [if_pos hm]
        rw [h1] at hmem
        exact hnd tm' hmem
      · have hupd : ({ team with members := team.members ++ [userId] } : Team).members.Nodup := by
          rw [List.nodup_append]
          exact ⟨hnd team (List.mem_of_find?_eq_some hfind), List.nodup_singleton userId,
            fun a ha hb => hm ((List.mem_singleton.mp hb) ▸ ha)⟩
        cases fail? with
        | none =>
          have h1 := (addMemberToTeam_ok_spec st teamId userId team hfind hm).1
          rw [h1] at hmem
          obtain ⟨x, hx, rfl⟩ := List.mem_map.mp hmem
          by_cases hxid : x.id = teamId
          · rw [if_pos hxid]; exact hupd
          · rw [if_neg hxid]; exact hnd x hx
        | some e =>
          have h1 : (addMemberToTeam (some e) st teamId userId).1.allTeams
              = (st.allTeams.map
                  (fun t => if t.id = teamId then { team with members := team.members ++ [userId] } else t)).map
                  (fun t => if t.id = teamId then team else t) := by
            unfold addMemberToTeam
            rw [hfind]
            dsimp only
            rw [if_neg hm]
            rfl
          rw [h1] at hmem
          obtain ⟨y, hy, rfl⟩ := List.mem_map.mp hmem
          obtain ⟨x, hx, rfl⟩ := List.mem_map.mp hy
          by_cases hgid : (if x.id = teamId then { team with members := team.members ++ [userId] } else x).id = teamId
          · rw [if_pos hgid]
            exact hnd team (List.mem_of_find?_eq_some hfind)
          · rw [if_neg hgid]
            by_cases hxid : x.id = teamId
            · exact absurd (by rw [if_pos hxid]; simpa using List.find?_some hfind) hgid
            · rw [if_neg hxid] at hgid ⊢
              exact hnd x hx

/-- Witness for C10: a concrete team where the member is already present (the
action is the identity and reports success), and the same concrete state for
the idempotence and no-duplicate conjuncts. -/
theorem addMemberToTeam_idempotent_total_witness :
    addMemberToTeam none
        { baseState with allTeams := [{ id := "t1", name := "Core", workspaceId := "w1",
                                        members := ["u1"], leadId := "u1" }] }
        "t1" "u1"
      = ({ baseState with allTeams := [{ id := "t1", name := "Core", workspaceId := "w1",
                                         members := ["u1"], leadId := "u1" }] }, Except.ok ()) ∧
      (∀ tm' ∈ (addMemberToTeam none
          { baseState with allTeams := [{ id := "t1", name := "Core", workspaceId := "w1",
                                          members := ["u1"], leadId := "u1" }] }
          "t1" "u1").1.allTeams, tm'.members.Nodup) :=
  ⟨(addMemberToTeam_idempotent_total none
      { baseState with allTeams := [{ id := "t1", name := "Core", workspaceId := "w1",
                                      members := ["u1"], leadId := "u1" }] }
      "t1" "u1").2.1
      { id := "t1", name := "Core", workspaceId := "w1", members := ["u1"], leadId := "u1" }
      (by decide) (by decide),
   (addMemberToTeam_idempotent_total none
      { baseState with allTeams := [{ id := "t1", name := "Core", workspaceId := "w1",
                                      members := ["u1"], leadId := "u1" }] }
      "t1" "u1").2.2.2
      (by decide)⟩

/-!  ## C7 — which Store mutations contain Data Access Layer failures -/

/-- Counterexample for C7 as stated: `createTeam` and `createSprint` (both
cited by the claim) have no try/catch, so a failing Data Access Layer call
escapes the Store action as an uncaught rejection instead of being converted
into a toast. -/
theorem createTeam_uncaught_failure :
    (createTeam (some "Network error") baseState "Platform" []).2
        = Except.error "Network error" ∧
      (createSprint (some "Network error") baseState "Sprint 1" "goal" 30).2
        = Except.error "Network error" := by
  constructor <;> rfl

/-- C7 (amended): the issue and team-membership mutations (`updateIssue`,
`deleteIssue`, `addIssue`, `addComment`, `addMemberToTeam`,
`removeMemberFromTeam`) and `createProject` catch every Data Access Layer
failure at the mutation boundary (no rejection ever escapes them), while
`updateProjectInfo`, `createSprint`, `startSprint`, `completeSprint`,
`createTeam` and `inviteUser` have no catch on their remote calls: whenever
such a call fails, the failure escapes the Store action as an uncaught
rejection (these actions apply their local update only after the remote call,
so the local collections are left in the prior valid state). -/
theorem store_mutation_error_containment (fail? : Option String) (st : StoreState)
    (e id teamId userId email sprintId sd ed nm k ds g : String)
    (upd : IssueUpdate) (d : NewIssueData) (memberIds : List String)
    (goalOpt : Option String) (cap : Nat) (info : Project)
    (fI : String → Option String) (act : Spillover) (pm rf : Bool)
    (wsf pjf : Option String) (pt : ProjectType) :
    (updateIssue fail? st id upd).2 = .ok () ∧
      (deleteIssue fail? st id).2 = .ok () ∧
      (addIssue fail? st d).2 = .ok () ∧
      (addComment fail? st id g userId).2 = .ok () ∧
      (addMemberToTeam fail? st teamId userId).2 = .ok () ∧
      (removeMemberFromTeam fail? st teamId userId).2 = .ok () ∧
      (createProject pm rf wsf pjf st nm k ds pt).2 = .ok () ∧
      (updateProjectInfo (some e) st info).2 = .error e ∧
      ((activeProject st).isSome → (createSprint (some e) st nm g cap).2 = .error e) ∧
      (∀ sprint, st.allSprints.find? (fun s => s.id = sprintId) = some sprint →
        (startSprint (some e) st sprintId sd ed goalOpt).2 = .error e) ∧
      (∀ sprint, st.allSprints.find? (fun s => s.id = sprintId) = some sprint →
        (completeSprint (some e) fI st sprintId act).2 = .error e) ∧
      ((activeWorkspace st).isSome → st.currentUser.isSome →
        (createTeam (some e) st nm memberIds).2 = .error e) ∧
      (∀ ws usr, activeWorkspace st = some ws →
        st.users.find? (fun u => u.email = email) = some usr →
        usr.id ∉ ws.members → (inviteUser (some e) st email).2 = .error e) := by
  refine ⟨?_, ?_, ?_, ?_, ?_, ?_, ?_, ?_, ?_, ?_, ?_, ?_, ?_⟩
  · unfold updateIssue updateIssueFrom
    cases h : st.allIssues.find? (fun i => i.id = id) with
    | none => rfl
    | some u =>
      cases fail? with
      | none => rfl
      | some err => rfl
  · unfold deleteIssue
    cases fail? with
    | none => rfl
    | some err => rfl
  · unfold addIssue
    cases h : activeProject st with
    | none => rfl
    | some p =>
      cases fail? with
      | some err => rfl
      | none =>
        dsimp only
        split <;> rfl
  · unfold addComment
    cases h : st.allIssues.find? (fun i => i.id = id) with
    | none => rfl
    | some issue =>
      dsimp only
      unfold updateIssue updateIssueFrom
      cases h2 : st.allIssues.find? (fun i => i.id = id) with
      | none => rfl
      | some u =>
        cases fail? with
        | none => rfl
        | some err => rfl
  · unfold addMemberToTeam
    cases h : st.allTeams.find? (fun t => t.id = teamId) with
    | none => rfl
    | some team =>
      dsimp only
      by_cases hm : userId ∈ team.members
      · rw [if_pos hm]
      · rw [if_neg hm]
        cases fail? with
        | none => rfl
        | some err => rfl
  · unfold removeMemberFromTeam
    cases h : st.allTeams.find? (fun t => t.id = teamId) with
    | none => rfl
    | some team =>
      cases fail? with
      | none => rfl
      | some err => rfl
  · unfold createProject
    cases st.currentUser with
    | none => rfl
    | some u =>
      dsimp only
      repeat' split
      all_goals rfl
  · unfold updateProjectInfo
    rfl
  · intro h
    obtain ⟨p, hp⟩ := Option.isSome_iff_exists.mp h
    unfold createSprint
    rw [hp]
  · intro sprint hf
    unfold startSprint
    rw [hf]
  · intro sprint hf
    unfold completeSprint
    rw [hf]
  · intro h1 h2
    obtain ⟨ws, hws⟩ := Option.isSome_iff_exists.mp h1
    obtain ⟨cu, hcu⟩ := Option.isSome_iff_exists.mp h2
    unfold createTeam
    rw [hws, hcu]
  · intro ws usr hws husr hnm
    unfold inviteUser
    rw [hws]
    dsimp only
    rw [husr]
    dsimp only
    rw [if_neg hnm]

/-- Witness for C7 (amended) at concrete inputs: the catching mutations
report success even when the remote call fails, and each non-catching action
lets the concrete failure escape. -/
theorem store_mutation_error_containment_witness :
    (updateIssue (some "boom") baseState "PROJ-1" { status := some .DONE }).2 = .ok () ∧
      (createSprint (some "boom") baseState "Sprint 1" "g" 30).2 = Except.error "boom" ∧
      (startSprint (some "boom") { baseState with allSprints := [mkSprint "sp-1" .PLANNED] }
          "sp-1" "2026-01-01" "2026-01-14" none).2 = Except.error "boom" ∧
      (createTeam (some "boom") baseState "Platform" []).2 = Except.error "boom" ∧
      (inviteUser (some "boom") { baseState with
          users := [user0, { user0 with id := "u2", email := "sam@vibetrack.com" }] }
          "sam@vibetrack.com").2 = Except.error "boom" := by
  refine ⟨?_, ?_, ?_, ?_, ?_⟩
  · exact (store_mutation_error_containment (some "boom") baseState "boom" "PROJ-1" "t"
      "u" "m" "s" "a" "b" "n" "k" "d" "g" { status := some .DONE } newIssue0 []
      none 30 project0 (fun _ => none) .BACKLOG false false none none .software).1
  · exact (store_mutation_error_containment (some "boom") baseState "boom" "PROJ-1" "t"
      "u" "m" "s" "a" "b" "Sprint 1" "k" "d" "g" { status := some .DONE } newIssue0 []
      none 30 project0 (fun _ => none) .BACKLOG false false none none
      .software).2.2.2.2.2.2.2.2.1 (by decide)
  · exact (store_mutation_error_containment (some "boom")
      { baseState with allSprints := [mkSprint "sp-1" .PLANNED] } "boom" "PROJ-1" "t"
      "u" "m" "sp-1" "2026-01-01" "2026-01-14" "n" "k" "d" "g" { status := some .DONE }
      newIssue0 [] none 30 project0 (fun _ => none) .BACKLOG false false none none
      .software).2.2.2.2.2.2.2.2.2.1 (mkSprint "sp-1" .PLANNED) (by decide)
  · exact (store_mutation_error_containment (some "boom") baseState "boom" "PROJ-1" "t"
      "u" "m" "s" "a" "b" "Platform" "k" "d" "g" { status := some .DONE } newIssue0 []
      none 30 project0 (fun _ => none) .BACKLOG false false none none
      .software).2.2.2.2.2.2.2.2.2.2.2.1 (by decide) (by decide)
  · exact (store_mutation_error_containment (some "boom")
      { baseState with users := [user0, { user0 with id := "u2", email := "sam@vibetrack.com" }] }
      "boom" "PROJ-1" "t" "u" "sam@vibetrack.com" "s" "a" "b" "n" "k" "d" "g"
      { status := some .DONE } newIssue0 [] none 30 project0 (fun _ => none) .BACKLOG
      false false none none
      .software).2.2.2.2.2.2.2.2.2.2.2.2 workspace0
      { user0 with id := "u2", email := "sam@vibetrack.com" } (by decide) (by decide) (by decide)

/-!  ## C9 — `createProject` checks CREATE_PROJECT only when projects exist -/

/-- C9: with a signed-in user and an active workspace, `createProject` runs
its permission check only when the locally loaded project list is non-empty:
with an empty list the project is created for any role without a permission
check; with a non-empty list and a role lacking CREATE_PROJECT the action
stops with the permission-denied toast and changes nothing else. -/
theorem createProject_permission_only_when_nonempty (pm : Bool)
    (wsf pjf : Option String) (st : StoreState) (u : User) (nm k ds : String)
    (pt : ProjectType) (hu : st.currentUser = some u)
    (hws : ¬ st.activeWorkspaceId = "") :
    (st.allProjects = [] →
      (createProject pm false none none st nm k ds pt).1.allProjects
          = [{ id := "p-" ++ toString st.nowMs, workspaceId := st.activeWorkspaceId,
               name := nm, key := k, description := ds, type := pt, leadId := u.id }] ∧
        (createProject pm false none none st nm k ds pt).2 = .ok ()) ∧
      (st.allProjects ≠ [] →
        hasPermission u.role Permission.CREATE_PROJECT = false →
        createProject pm false wsf pjf st nm k ds pt
          = (pushToast st "You do not have permission to create projects." ToastKind.error,
             Except.ok ())) := by
  constructor
  · intro h0
    unfold createProject
    rw [hu]
    dsimp only
    rw [if_neg (fun hc => Bool.false_ne_true hc.2)]
    rw [if_neg hws]
    dsimp only
    rw [if_neg (fun hc => by rw [h0] at hc; exact absurd hc.1 (by simp))]
    constructor
    · dsimp only [pushToast]
      rw [h0]
      rfl
    · rfl
  · intro hne hperm
    have hcp : checkPermission st Permission.CREATE_PROJECT = false := by
      unfold checkPermission
      rw [hu]
      exact hperm
    unfold createProject
    rw [hu]
    dsimp only
    rw [if_neg (fun hc => Bool.false_ne_true hc.2)]
    rw [if_neg hws]
    dsimp only
    rw [if_pos ⟨List.length_pos.mpr hne, by rw [hcp]; simp⟩]

/-- A concrete user whose role grants no CREATE_PROJECT permission. -/
def devUser : User := { user0 with role := "Developer" }

/-- `baseState` with no loaded projects and the developer-role user. -/
def stateNoProjects : StoreState :=
  { baseState with allProjects := [], currentUser := some devUser }

/-- `baseState` (one loaded project) with the developer-role user. -/
def stateDevUser : StoreState := { baseState with currentUser := some devUser }

/-- Witness for C9: the developer-role user creates the first project without
a permission check, and is rejected by the same call once a project exists. -/
theorem createProject_permission_only_when_nonempty_witness :
    ((createProject false false none none stateNoProjects "New" "NEW" "" .software).1.allProjects
        = [{ id := "p-" ++ toString stateNoProjects.nowMs,
             workspaceId := stateNoProjects.activeWorkspaceId, name := "New",
             key := "NEW", description := "", type := .software, leadId := devUser.id }] ∧
      (createProject false false none none stateNoProjects "New" "NEW" "" .software).2
        = .ok ()) ∧
      createProject false false none none stateDevUser "New" "NEW" "" .software
        = (pushToast stateDevUser "You do not have permission to create projects."
            ToastKind.error, Except.ok ()) :=
  ⟨(createProject_permission_only_when_nonempty false none none stateNoProjects devUser
      "New" "NEW" "" .software (by decide) (by decide)).1 (by decide),
   (createProject_permission_only_when_nonempty false none none stateDevUser devUser
      "New" "NEW" "" .software (by decide) (by decide)).2 (by decide) (by decide)⟩

/-!  ## Machinery for `completeSprint`'s per-issue update loop -/

/-- Updating only `sprintId` leaves every other field except `updatedAt`
untouched. -/
theorem applyIssueUpdate_sprintId (i : Issue) (nid : Option String) (iso : String) :
    applyIssueUpdate i { sprintId := some nid } iso
      = { i with sprintId := nid, updatedAt := iso } := rfl

/-- In a list whose ids are injective on members, `find?` by the id of a
member returns that member. -/
theorem find?_id_of_mem (l : List Issue)
    (hinj : ∀ x ∈ l, ∀ y ∈ l, x.id = y.id → x = y)
    (m : Issue) (hm : m ∈ l) :
    l.find? (fun i => i.id = m.id) = some m := by
  have hs : (l.find? (fun i => i.id = m.id)).isSome :=
    List.find?_isSome.mpr ⟨m, hm, by simp⟩
  obtain ⟨u, hu⟩ := Option.isSome_iff_exists.mp hs
  have hum : u ∈ l := List.mem_of_find?_eq_some hu
  have huid : u.id = m.id := by simpa using List.find?_some hu
  rw [hu]
  exact congrArg some (hinj u hum m hm huid)

/-- Componentwise description of `completeSprint`'s loop: folding the
(successful) `updateIssueFrom` steps over the state touches only
`allIssues`, `remoteIssues` and `apiCalls`; its effect on `allIssues` is the
corresponding fold of per-id list replacements. -/
theorem foldl_updateIssueFrom_components (orig : List Issue) (u : IssueUpdate)
    (iso : String) :
    ∀ (ms : List Issue) (acc : StoreState), acc.nowIso = iso →
      (∀ m ∈ ms, orig.find? (fun i => i.id = m.id) = some m) →
      (ms.foldl (fun a (m : Issue) => (updateIssueFrom orig none a m.id u).1) acc).allIssues
          = ms.foldl (fun cur (m : Issue) =>
              cur.map (fun j => if j.id = m.id then applyIssueUpdate m u iso else j)) acc.allIssues
        ∧ (ms.foldl (fun a (m : Issue) => (updateIssueFrom orig none a m.id u).1) acc).remoteSprints
            = acc.remoteSprints
        ∧ (ms.foldl (fun a (m : Issue) => (updateIssueFrom orig none a m.id u).1) acc).allSprints
            = acc.allSprints
        ∧ (ms.foldl (fun a (m : Issue) => (updateIssueFrom orig none a m.id u).1) acc).nowIso = iso := by
  intro ms
  induction ms with
  | nil => exact fun acc hiso _ => ⟨rfl, rfl, rfl, hiso⟩
  | cons m ms ih =>
    intro acc hiso h
    have hm := h m (List.mem_cons_self m ms)
    have hA : (updateIssueFrom orig none acc m.id u).1.allIssues
        = acc.allIssues.map (fun j => if j.id = m.id then applyIssueUpdate m u iso else j) := by
      unfold updateIssueFrom
      rw [hm]
      dsimp only
      rw [hiso]
    have hRS : (updateIssueFrom orig none acc m.id u).1.remoteSprints = acc.remoteSprints := by
      unfold updateIssueFrom
      rw [hm]
    have hAS : (updateIssueFrom orig none acc m.id u).1.allSprints = acc.allSprints := by
      unfold updateIssueFrom
      rw [hm]
    have hIso : (updateIssueFrom orig none acc m.id u).1.nowIso = iso := by
      unfold updateIssueFrom
      rw [hm]
      dsimp only
      exact hiso
    obtain ⟨ih1, ih2, ih3, ih4⟩ :=
      ih (updateIssueFrom orig none acc m.id u).1 hIso
        (fun x hx => h x (List.mem_cons_of_mem m hx))
    refine ⟨?_, ?_, ?_, ih4⟩
    · rw [List.foldl_cons, List.foldl_cons, ih1, hA]
    · rw [List.foldl_cons, ih2, hRS]
    · rw [List.foldl_cons, ih3, hAS]

/-- Folding per-id replacements (one per entry of `ms`, each a member of
`orig`) over `orig` applies the replacement exactly to the entries whose id
occurs in `ms`, provided ids are injective on `orig`. -/
theorem foldl_map_replace (u : IssueUpdate) (iso : String) (orig : List Issue)
    (hinj : ∀ x ∈ orig, ∀ y ∈ orig, x.id = y.id → x = y) :
    ∀ (ms : List Issue) (h : Issue → Issue),
      (∀ m ∈ ms, m ∈ orig) →
      (∀ i ∈ orig, (h i).id = i.id) →
      ms.foldl (fun cur (m : Issue) =>
          cur.map (fun j => if j.id = m.id then applyIssueUpdate m u iso else j)) (orig.map h)
        = orig.map (fun i =>
            if ms.any (fun m => m.id = i.id) then applyIssueUpdate i u iso else h i) := by
  intro ms
  induction ms with
  | nil =>
    intro h _ _
    simp
  | cons m ms ih =>
    intro h hms hh
    rw [List.foldl_cons]
    have hmap : (orig.map h).map (fun j => if j.id = m.id then applyIssueUpdate m u iso else j)
        = orig.map (fun i => if i.id = m.id then applyIssueUpdate m u iso else h i) := by
      rw [List.map_map]
      apply List.map_congr_left
      intro x hx
      simp only [Function.comp_apply]
      rw [hh x hx]
    rw [hmap]
    have hh' : ∀ i ∈ orig,
        ((fun i => if i.id = m.id then applyIssueUpdate m u iso else h i) i).id = i.id := by
      intro i hi
      by_cases him : i.id = m.id
      · simp only [if_pos him]
        rw [show (applyIssueUpdate m u iso).id = m.id from rfl, him]
      · simp only [if_neg him]
        exact hh i hi
    rw [ih (fun i => if i.id = m.id then applyIssueUpdate m u iso else h i)
      (fun x hx => hms x (List.mem_cons_of_mem m hx)) hh']
    apply List.map_congr_left
    intro i hi
    by_cases hmsany : ms.any (fun m' => m'.id = i.id) = true
    · rw [if_pos hmsany]
      have hcons : (m :: ms).any (fun m' => m'.id = i.id) = true := by
        rw [List.any_cons, hmsany, Bool.or_true]
      rw [if_pos hcons]
    · rw [if_neg hmsany]
      by_cases him : i.id = m.id
      · rw [if_pos him]
        have hcons : (m :: ms).any (fun m' => m'.id = i.id) = true := by
          rw [List.any_cons, Bool.or_eq_true]
          exact Or.inl (by simpa using him.symm)
        rw [if_pos hcons]
        exact congrArg (fun x => applyIssueUpdate x u iso)
          (hinj m (hms m (List.mem_cons_self m ms)) i hi him.symm)
      · rw [if_neg him]
        have hcons : ¬ (m :: ms).any (fun m' => m'.id = i.id) = true := by
          rw [List.any_cons, Bool.or_eq_true]
          rintro (h1 | h2)
          · exact him (of_decide_eq_true h1).symm
          · exact hmsany h2
        rw [if_neg hcons]

/-- `countP` of a disjunction of two predicates that never hold together is
the sum of the two counts. -/
theorem countP_or_disjoint (l : List Issue) (p q : Issue → Bool)
    (h : ∀ a ∈ l, ¬(p a = true ∧ q a = true)) :
    l.countP (fun a => p a || q a) = l.countP p + l.countP q := by
  induction l with
  | nil => simp
  | cons a l ih =>
    rw [List.countP_cons, List.countP_cons, List.countP_cons,
      ih (fun x hx => h x (List.mem_cons_of_mem a hx))]
    by_cases hp : p a = true
    · have hq : ¬ q a = true := fun hq => h a (List.mem_cons_self a l) ⟨hp, hq⟩
      simp only [hp, hq, Bool.true_or, if_pos, if_neg, if_true]
      simp [hq]
      omega
    · by_cases hq : q a = true
      · simp only [hp, hq]
        simp [hp, hq]
        omega
      · simp [hp, hq]

/-- `foldl_map_replace` started from `orig` itself. -/
theorem foldl_map_replace_self (u : IssueUpdate) (iso : String) (orig : List Issue)
    (hinj : ∀ x ∈ orig, ∀ y ∈ orig, x.id = y.id → x = y)
    (ms : List Issue) (hms : ∀ m ∈ ms, m ∈ orig) :
    ms.foldl (fun cur (m : Issue) =>
        cur.map (fun j => if j.id = m.id then applyIssueUpdate m u iso else j)) orig
      = orig.map (fun i =>
          if ms.any (fun m => m.id = i.id) then applyIssueUpdate i u iso else i) := by
  have h := foldl_map_replace u iso orig hinj ms (fun i => i) hms (fun i _ => rfl)
  simpa using h

/-- Evaluation of `completeSprint`'s reassignment loop (all remote calls
succeeding): starting from any state `st1` sharing `allIssues` and the clock
with `st`, the loop rewrites exactly the issues of the completed sprint whose
status is not DONE to the destination `nid`, stamps `updatedAt`, and leaves
the sprint collections untouched. -/
theorem spill_fold_eval (st st1 : StoreState) (sid : String) (nid : Option String)
    (hnodup : (st.allIssues.map Issue.id).Nodup)
    (h1A : st1.allIssues = st.allIssues) (h1iso : st1.nowIso = st.nowIso) :
    ((st.allIssues.filter (fun i => i.sprintId = some sid ∧ ¬ i.status = Status.DONE)).foldl
        (fun acc (issue : Issue) =>
          (updateIssueFrom st.allIssues none acc issue.id { sprintId := some nid }).1) st1).allIssues
      = st.allIssues.map (fun i =>
          if i.sprintId = some sid ∧ ¬ i.status = Status.DONE
          then { i with sprintId := nid, updatedAt := st.nowIso } else i)
    ∧ ((st.allIssues.filter (fun i => i.sprintId = some sid ∧ ¬ i.status = Status.DONE)).foldl
        (fun acc (issue : Issue) =>
          (updateIssueFrom st.allIssues none acc issue.id { sprintId := some nid }).1) st1).remoteSprints
      = st1.remoteSprints
    ∧ ((st.allIssues.filter (fun i => i.sprintId = some sid ∧ ¬ i.status = Status.DONE)).foldl
        (fun acc (issue : Issue) =>
          (updateIssueFrom st.allIssues none acc issue.id { sprintId := some nid }).1) st1).allSprints
      = st1.allSprints := by
  have hinj' : ∀ x ∈ st.allIssues, ∀ y ∈ st.allIssues, x.id = y.id → x = y :=
    fun x hx y hy => List.inj_on_of_nodup_map hnodup hx hy
  have hms_mem : ∀ m ∈ st.allIssues.filter
      (fun i => i.sprintId = some sid ∧ ¬ i.status = Status.DONE), m ∈ st.allIssues :=
    fun m hm => (List.mem_filter.mp hm).1
  have hms_find : ∀ m ∈ st.allIssues.filter
      (fun i => i.sprintId = some sid ∧ ¬ i.status = Status.DONE),
      st.allIssues.find? (fun i => i.id = m.id) = some m :=
    fun m hm => find?_id_of_mem st.allIssues hinj' m (hms_mem m hm)
  obtain ⟨hA, hRS, hAS, _⟩ := foldl_updateIssueFrom_components st.allIssues
    { sprintId := some nid } st.nowIso
    (st.allIssues.filter (fun i => i.sprintId = some sid ∧ ¬ i.status = Status.DONE))
    st1 h1iso hms_find
  refine ⟨?_, hRS, hAS⟩
  rw [hA, h1A, foldl_map_replace_self { sprintId := some nid } st.nowIso st.allIssues hinj' _ hms_mem]
  apply List.map_congr_left
  intro i hi
  by_cases hp : i.sprintId = some sid ∧ ¬ i.status = Status.DONE
  · have hmem : i ∈ st.allIssues.filter
        (fun i => i.sprintId = some sid ∧ ¬ i.status = Status.DONE) :=
      List.mem_filter.mpr ⟨hi, by simpa using hp⟩
    have hany : (st.allIssues.filter
        (fun i => i.sprintId = some sid ∧ ¬ i.status = Status.DONE)).any
          (fun m => m.id = i.id) = true :=
      List.any_eq_true.mpr ⟨i, hmem, by simp⟩
    rw [if_pos hany, if_pos hp, applyIssueUpdate_sprintId]
  · have hany : ¬ (st.allIssues.filter
        (fun i => i.sprintId = some sid ∧ ¬ i.status = Status.DONE)).any
          (fun m => m.id = i.id) = true := by
      intro hc
      obtain ⟨m, hmem, hmid⟩ := List.any_eq_true.mp hc
      obtain ⟨hm_orig, hmp⟩ := List.mem_filter.mp hmem
      exact hp ((hinj' m hm_orig i hi (of_decide_eq_true hmid)) ▸ (of_decide_eq_true hmp))
    rw [if_neg hany, if_neg hp]

/-!  ## C2 — completing a sprint with the BACKLOG spillover policy -/

/-- C2: `completeSprint sid BACKLOG` with all remote calls succeeding (a) maps
the issue collection pointwise — each issue attached to the sprint and not
DONE gets a null sprint reference (with a fresh `updatedAt`), each DONE issue
keeps `sprintId = sid`, every other issue is untouched; (b) writes the sprint
row with status COMPLETED; (c) exactly the K DONE issues remain attached to
the sprint; and (d) the number of backlog (null-reference) issues grows by
exactly N−K, the number of attached non-DONE issues. -/
theorem completeSprint_backlog_spillover (st : StoreState) (sid : String)
    (sprint : Sprint)
    (hfind : st.allSprints.find? (fun s => s.id = sid) = some sprint)
    (hnodup : (st.allIssues.map Issue.id).Nodup) :
    (completeSprint none (fun _ => none) st sid .BACKLOG).1.allIssues
        = st.allIssues.map (fun i =>
            if i.sprintId = some sid ∧ ¬ i.status = Status.DONE
            then { i with sprintId := none, updatedAt := st.nowIso } else i) ∧
      (completeSprint none (fun _ => none) st sid .BACKLOG).1.remoteSprints
        = st.remoteSprints.map (fun r =>
            if r.id = sid then { sprint with status := SprintStatus.COMPLETED } else r) ∧
      (completeSprint none (fun _ => none) st sid .BACKLOG).1.allIssues.countP
          (fun j => j.sprintId = some sid)
        = st.allIssues.countP (fun i => i.sprintId = some sid ∧ i.status = Status.DONE) ∧
      (completeSprint none (fun _ => none) st sid .BACKLOG).1.allIssues.countP
          (fun j => j.sprintId = none)
        = st.allIssues.countP (fun i => i.sprintId = none)
          + st.allIssues.countP (fun i => i.sprintId = some sid ∧ ¬ i.status = Status.DONE) := by
  have hsid : sprint.id = sid := by simpa using List.find?_some hfind
  have hcore : (completeSprint none (fun _ => none) st sid .BACKLOG).1.allIssues
        = st.allIssues.map (fun i =>
            if i.sprintId = some sid ∧ ¬ i.status = Status.DONE
            then { i with sprintId := none, updatedAt := st.nowIso } else i) ∧
      (completeSprint none (fun _ => none) st sid .BACKLOG).1.remoteSprints
        = st.remoteSprints.map (fun r =>
            if r.id = sid then { sprint with status := SprintStatus.COMPLETED } else r) := by
    unfold completeSprint
    rw [hfind]
    dsimp only
    obtain ⟨h1, h2, h3⟩ := spill_fold_eval st
      (apiUpdateSprintOk st { sprint with status := .COMPLETED }) sid none hnodup rfl rfl
    constructor
    · dsimp only [pushToast]
      exact h1
    · dsimp only [pushToast]
      rw [h2]
      dsimp only [apiUpdateSprintOk]
      rw [show ({ sprint with status := SprintStatus.COMPLETED } : Sprint).id = sid from hsid]
  obtain ⟨hc1, hc2⟩ := hcore
  refine ⟨hc1, hc2, ?_, ?_⟩
  · rw [hc1, List.countP_map]
    apply List.countP_congr
    intro i hi
    simp only [Function.comp_apply, decide_eq_true_eq]
    by_cases hp : i.sprintId = some sid ∧ ¬ i.status = Status.DONE
    · rw [if_pos hp]
      constructor
      · intro hcontra
        exact absurd hcontra (by simp)
      · rintro ⟨_, hdone⟩
        exact absurd hdone hp.2
    · rw [if_neg hp]
      constructor
      · intro ha
        refine ⟨ha, ?_⟩
        by_contra hnd
        exact hp ⟨ha, hnd⟩
      · exact fun h => h.1
  · rw [hc1, List.countP_map]
    have step1 : st.allIssues.countP
        ((fun j => decide (j.sprintId = none)) ∘ fun i =>
          if i.sprintId = some sid ∧ ¬ i.status = Status.DONE
          then { i with sprintId := none, updatedAt := st.nowIso } else i)
        = st.allIssues.countP (fun i =>
            decide (i.sprintId = some sid ∧ ¬ i.status = Status.DONE)
              || decide (i.sprintId = none)) := by
      apply List.countP_congr
      intro i hi
      simp only [Function.comp_apply, Bool.or_eq_true, decide_eq_true_eq]
      by_cases hp : i.sprintId = some sid ∧ ¬ i.status = Status.DONE
      · rw [if_pos hp]
        simp [hp]
      · rw [if_neg hp]
        simp [hp]
    rw [step1, countP_or_disjoint]
    · exact Nat.add_comm _ _
    · intro a ha hboth
      obtain ⟨hb1, hb2⟩ := hboth
      have ha1 := of_decide_eq_true hb1
      have ha2 := of_decide_eq_true hb2
      rw [ha2] at ha1
      exact absurd ha1.1 (by simp)

/-- A concrete state for the sprint-completion claims: one active sprint
`sp-1` with an attached TODO issue and an attached DONE issue, plus one
backlog issue. -/
def sprintState : StoreState :=
  { baseState with
      allSprints := [mkSprint "sp-1" .ACTIVE]
      remoteSprints := [mkSprint "sp-1" .ACTIVE]
      allIssues := [mkIssue "PROJ-1" (some "sp-1") .TODO,
                    mkIssue "PROJ-2" (some "sp-1") .DONE,
                    mkIssue "PROJ-3" none .IN_PROGRESS] }

/-- Witness for C2 at `sprintState` (N = 2 attached issues, K = 1 DONE). -/
theorem completeSprint_backlog_spillover_witness :
    (completeSprint none (fun _ => none) sprintState "sp-1" .BACKLOG).1.allIssues
        = sprintState.allIssues.map (fun i =>
            if i.sprintId = some "sp-1" ∧ ¬ i.status = Status.DONE
            then { i with sprintId := none, updatedAt := sprintState.nowIso } else i) ∧
      (completeSprint none (fun _ => none) sprintState "sp-1" .BACKLOG).1.remoteSprints
        = sprintState.remoteSprints.map (fun r =>
            if r.id = "sp-1" then { mkSprint "sp-1" .ACTIVE with status := SprintStatus.COMPLETED } else r) ∧
      (completeSprint none (fun _ => none) sprintState "sp-1" .BACKLOG).1.allIssues.countP
          (fun j => j.sprintId = some "sp-1")
        = sprintState.allIssues.countP
            (fun i => i.sprintId = some "sp-1" ∧ i.status = Status.DONE) ∧
      (completeSprint none (fun _ => none) sprintState "sp-1" .BACKLOG).1.allIssues.countP
          (fun j => j.sprintId = none)
        = sprintState.allIssues.countP (fun i => i.sprintId = none)
          + sprintState.allIssues.countP
              (fun i => i.sprintId = some "sp-1" ∧ ¬ i.status = Status.DONE) :=
  completeSprint_backlog_spillover sprintState "sp-1" (mkSprint "sp-1" .ACTIVE)
    (by decide) (by decide)

/-!  ## C3 — completing a sprint with the NEXT_SPRINT spillover policy -/

/-- C3: `completeSprint sid NEXT_SPRINT` with all remote calls succeeding
never fails; when at least one PLANNED sprint of the active project exists,
the destination is deterministically the first such sprint in the store's
sprint collection order (the order in which sprints were loaded/created) and
every attached non-DONE issue is reassigned to its id; when none exists the
result is identical to the BACKLOG fallback (null sprint reference). -/
theorem completeSprint_next_sprint_spillover (st : StoreState) (sid : String)
    (sprint : Sprint)
    (hfind : st.allSprints.find? (fun s => s.id = sid) = some sprint)
    (hnodup : (st.allIssues.map Issue.id).Nodup) :
    (completeSprint none (fun _ => none) st sid .NEXT_SPRINT).2 = .ok () ∧
      (∀ nxt, (st.allSprints.filter
          (fun s => s.projectId = st.activeProjectId ∧ s.status = SprintStatus.PLANNED)).head?
            = some nxt →
        (completeSprint none (fun _ => none) st sid .NEXT_SPRINT).1.allIssues
          = st.allIssues.map (fun i =>
              if i.sprintId = some sid ∧ ¬ i.status = Status.DONE
              then { i with sprintId := some nxt.id, updatedAt := st.nowIso } else i)) ∧
      ((st.allSprints.filter
          (fun s => s.projectId = st.activeProjectId ∧ s.status = SprintStatus.PLANNED)).head?
            = none →
        (completeSprint none (fun _ => none) st sid .NEXT_SPRINT).1
          = (completeSprint none (fun _ => none) st sid .BACKLOG).1) := by
  refine ⟨?_, ?_, ?_⟩
  · unfold completeSprint
    rw [hfind]
  · intro nxt hh
    unfold completeSprint
    rw [hfind]
    dsimp only
    rw [hh]
    dsimp only [pushToast]
    exact (spill_fold_eval st
      (apiUpdateSprintOk st { sprint with status := .COMPLETED }) sid (some nxt.id)
      hnodup rfl rfl).1
  · intro hh
    unfold completeSprint
    rw [hfind]
    dsimp only
    rw [hh]

/-- `sprintState` with an additional PLANNED sprint `sp-2` (in collection
order after a later-id PLANNED sprint `sp-9`, exercising the deterministic
first-in-collection choice). -/
def sprintStateNext : StoreState :=
  { sprintState with
      allSprints := [mkSprint "sp-1" .ACTIVE, mkSprint "sp-9" .PLANNED,
                     mkSprint "sp-2" .PLANNED] }

/-- Witness for C3: with PLANNED sprints present the destination is the first
one in collection order (`sp-9`), and with none present the NEXT_SPRINT call
equals the BACKLOG call. -/
theorem completeSprint_next_sprint_spillover_witness :
    (completeSprint none (fun _ => none) sprintStateNext "sp-1" .NEXT_SPRINT).2 = .ok () ∧
      (completeSprint none (fun _ => none) sprintStateNext "sp-1" .NEXT_SPRINT).1.allIssues
        = sprintStateNext.allIssues.map (fun i =>
            if i.sprintId = some "sp-1" ∧ ¬ i.status = Status.DONE
            then { i with sprintId := some (mkSprint "sp-9" .PLANNED).id,
                          updatedAt := sprintStateNext.nowIso } else i) ∧
      (completeSprint none (fun _ => none) sprintState "sp-1" .NEXT_SPRINT).1
        = (completeSprint none (fun _ => none) sprintState "sp-1" .BACKLOG).1 :=
  ⟨(completeSprint_next_sprint_spillover sprintStateNext "sp-1" (mkSprint "sp-1" .ACTIVE)
      (by decide) (by decide)).1,
   (completeSprint_next_sprint_spillover sprintStateNext "sp-1" (mkSprint "sp-1" .ACTIVE)
      (by decide) (by decide)).2.1 (mkSprint "sp-9" .PLANNED) (by decide),
   (completeSprint_next_sprint_spillover sprintState "sp-1" (mkSprint "sp-1" .ACTIVE)
      (by decide) (by decide)).2.2 (by decide)⟩

/-!  ## C6 — `completeSprint` is idempotent on an already-completed sprint -/

/-- C6: once a sprint's completion has taken effect (its status is COMPLETED,
every issue still attached to it is DONE, and the remote row is COMPLETED),
calling `completeSprint` again — with either spillover policy, whatever the
remote outcomes — reassigns no issue's sprint reference (local or remote) and
changes no sprint status. -/
theorem completeSprint_idempotent (failS : Option String)
    (failI : String → Option String) (st : StoreState) (sid : String)
    (sprint : Sprint) (action : Spillover)
    (hfind : st.allSprints.find? (fun s => s.id = sid) = some sprint)
    (hdone : sprint.status = SprintStatus.COMPLETED)
    (hissues : ∀ i ∈ st.allIssues, i.sprintId = some sid → i.status = Status.DONE)
    (hremote : ∀ r ∈ st.remoteSprints, r.id = sid → r.status = SprintStatus.COMPLETED) :
    (completeSprint failS failI st sid action).1.allIssues = st.allIssues ∧
      (completeSprint failS failI st sid action).1.remoteIssues = st.remoteIssues ∧
      (completeSprint failS failI st sid action).1.allSprints = st.allSprints ∧
      (completeSprint failS failI st sid action).1.remoteSprints.map Sprint.status
        = st.remoteSprints.map Sprint.status := by
  have hsid : sprint.id = sid := by simpa using List.find?_some hfind
  unfold completeSprint
  rw [hfind]
  cases failS with
  | some e => exact ⟨rfl, rfl, rfl, rfl⟩
  | none =>
    dsimp only
    have hfilter : st.allIssues.filter
        (fun i => i.sprintId = some sid ∧ ¬ i.status = Status.DONE) = [] := by
      rw [List.filter_eq_nil_iff]
      intro a ha
      simp only [decide_eq_true_eq, not_and]
      intro h1 h2
      exact h2 (hissues a ha h1)
    rw [hfilter]
    refine ⟨rfl, rfl, rfl, ?_⟩
    rw [List.foldl_nil]
    dsimp only [pushToast, apiUpdateSprintOk]
    rw [List.map_map]
    apply List.map_congr_left
    intro r hr
    simp only [Function.comp_apply]
    by_cases hid : r.id = sprint.id
    · rw [if_pos hid]
      exact (hremote r hr (hid.trans hsid)).symm
    · rw [if_neg hid]

/-- `sprintState` after its completion took effect: the sprint is COMPLETED
locally and remotely and only a DONE issue remains attached. -/
def completedState : StoreState :=
  { baseState with
      allSprints := [mkSprint "sp-1" .COMPLETED]
      remoteSprints := [mkSprint "sp-1" .COMPLETED]
      allIssues := [mkIssue "PROJ-2" (some "sp-1") .DONE,
                    mkIssue "PROJ-1" none .TODO] }

/-- Witness for C6: the second completion (either policy would do — BACKLOG
shown, with succeeding remote calls) moves nothing and changes no status. -/
theorem completeSprint_idempotent_witness :
    (completeSprint none (fun _ => none) completedState "sp-1" .BACKLOG).1.allIssues
        = completedState.allIssues ∧
      (completeSprint none (fun _ => none) completedState "sp-1" .BACKLOG).1.remoteIssues
        = completedState.remoteIssues ∧
      (completeSprint none (fun _ => none) completedState "sp-1" .BACKLOG).1.allSprints
        = completedState.allSprints ∧
      (completeSprint none (fun _ => none) completedState "sp-1" .BACKLOG).1.remoteSprints.map
          Sprint.status
        = completedState.remoteSprints.map Sprint.status :=
  completeSprint_idempotent none (fun _ => none) completedState "sp-1"
    (mkSprint "sp-1" .COMPLETED) .BACKLOG (by decide) (by decide) (by decide) (by decide)

end VibeTrack
